import Mathlib

/-!
Shallow embedding of three halo2 arithmetic gadgets:
  * `RangeCheckConfig` from `src/circuits/range_check_2.rs`
  * `IsZeroChip` from `src/circuits/gadgets/is_zero_1.rs`
  * `IsEqualChip` from `src/circuits/is_equal_1.rs`

Polynomial gate expressions are embedded as an inductive `Expression` AST
mirroring `halo2_proofs::plonk::Expression` (the constructors used by this
repository: `Constant`, advice/fixed/selector queries at `Rotation::cur()`,
`Negated`, `Sum`, `Product`; every query in the repository uses
`Rotation::cur()`, so the rotation argument is dropped).  The arithmetic
operator impls of halo2 (`Add`, `Sub`, `Mul`) are mirrored as instances:
`a - b` builds `Sum a (Negated b)` and `a * b` builds `Product a b`, exactly
as in halo2's `impl Sub for Expression` / `impl Mul for Expression`.

The mutable `ConstraintSystem` handle is embedded as a record threaded by
explicit state passing; `Region` is a list of cell writes, appended to by
`assign_advice`, `assign_fixed` and selector `enable`, mirroring the layouter
API surface the gadgets use.
-/

namespace Circuits

/-- Embedding of `halo2_proofs::plonk::Expression` restricted to the
constructors this repository uses; columns and selectors are identified by
their allocation index. -/
inductive Expression (F : Type) where
  | constant : F → Expression F
  | advice : ℕ → Expression F
  | fixedQuery : ℕ → Expression F
  | selector : ℕ → Expression F
  | negated : Expression F → Expression F
  | sum : Expression F → Expression F → Expression F
  | product : Expression F → Expression F → Expression F
  deriving DecidableEq, Repr

instance {F : Type} : Add (Expression F) where
  add a b := Expression.sum a b

instance {F : Type} : Sub (Expression F) where
  sub a b := Expression.sum a (Expression.negated b)

instance {F : Type} : Mul (Expression F) where
  mul a b := Expression.product a b

/-- One row's worth of cell values: what each advice column, fixed column and
selector holds on the row a gate is evaluated at. -/
structure Assignment (F : Type) where
  advice : ℕ → F
  fixedVal : ℕ → F
  sel : ℕ → F

/-- Evaluation of a gate expression at a row assignment, mirroring
`Expression::evaluate` of halo2. -/
def Expression.eval {F : Type} [Field F] (asg : Assignment F) :
    Expression F → F
  | .constant c => c
  | .advice i => asg.advice i
  | .fixedQuery i => asg.fixedVal i
  | .selector i => asg.sel i
  | .negated e => -(e.eval asg)
  | .sum a b => a.eval asg + b.eval asg
  | .product a b => a.eval asg * b.eval asg

/-- Embedding of `halo2_proofs::plonk::ConstraintSystem`: allocation counters
for columns and selectors, the registered gate polynomials, and the columns
with equality / constant capability enabled. -/
structure ConstraintSystem (F : Type) where
  num_advice : ℕ
  num_fixed : ℕ
  num_selectors : ℕ
  gates : List (Expression F)
  equality_cols : List ℕ
  constant_cols : List ℕ
  deriving DecidableEq, Repr

/-- A fresh constraint system, before any `configure` call. -/
def csEmpty (F : Type) : ConstraintSystem F :=
  ⟨0, 0, 0, [], [], []⟩

/-- `meta.advice_column()`: allocate a fresh advice column, returning its
index. -/
def ConstraintSystem.advice_column {F : Type} (cs : ConstraintSystem F) :
    ConstraintSystem F × ℕ :=
  ({ cs with num_advice := cs.num_advice + 1 }, cs.num_advice)

/-- `meta.fixed_column()`: allocate a fresh fixed column, returning its
index. -/
def ConstraintSystem.fixed_column {F : Type} (cs : ConstraintSystem F) :
    ConstraintSystem F × ℕ :=
  ({ cs with num_fixed := cs.num_fixed + 1 }, cs.num_fixed)

/-- `meta.selector()`: allocate a fresh selector, returning its index. -/
def ConstraintSystem.selector {F : Type} (cs : ConstraintSystem F) :
    ConstraintSystem F × ℕ :=
  ({ cs with num_selectors := cs.num_selectors + 1 }, cs.num_selectors)

/-- `meta.create_gate(...)`: register the polynomials returned by a gate
closure. -/
def ConstraintSystem.create_gate {F : Type} (cs : ConstraintSystem F)
    (polys : List (Expression F)) : ConstraintSystem F :=
  { cs with gates := cs.gates ++ polys }

/-- `meta.enable_equality(column)`. -/
def ConstraintSystem.enable_equality {F : Type} (cs : ConstraintSystem F)
    (col : ℕ) : ConstraintSystem F :=
  { cs with equality_cols := cs.equality_cols ++ [col] }

/-- `meta.enable_constant(column)`. -/
def ConstraintSystem.enable_constant {F : Type} (cs : ConstraintSystem F)
    (col : ℕ) : ConstraintSystem F :=
  { cs with constant_cols := cs.constant_cols ++ [col] }

/-- One side effect on a region: an advice-cell write, a fixed-cell write, or
a selector enable, each at (column/selector index, row offset). -/
inductive CellWrite (F : Type) where
  | advice : ℕ → ℕ → F → CellWrite F
  | fixedAt : ℕ → ℕ → F → CellWrite F
  | enableSel : ℕ → ℕ → CellWrite F
  deriving DecidableEq, Repr

/-- A region is the list of cell writes performed so far. -/
abbrev Region (F : Type) := List (CellWrite F)

/-- `region.assign_advice(column, offset, value)`. -/
def Region.assign_advice {F : Type} (r : Region F) (col offset : ℕ)
    (v : F) : Region F :=
  r ++ [CellWrite.advice col offset v]

/-- `region.assign_fixed(column, offset, value)`. -/
def Region.assign_fixed {F : Type} (r : Region F) (col offset : ℕ)
    (v : F) : Region F :=
  r ++ [CellWrite.fixedAt col offset v]

/-- `selector.enable(region, offset)`. -/
def Region.enable_selector {F : Type} (r : Region F) (s offset : ℕ) :
    Region F :=
  r ++ [CellWrite.enableSel s offset]

/-- `inv0`: field inversion with the convention that zero maps to zero.  The
source computes `value.into_field().invert()`, a deferred
`Assigned::Rational(1, value)` which the prover evaluates to `0` when
`value = 0` and to `1/value` otherwise. -/
def inv0 {F : Type} [Field F] [DecidableEq F] (v : F) : F :=
  if v = 0 then 0 else v⁻¹

/-! ## RangeCheck gadget (`src/circuits/range_check_2.rs`) -/

/-- `RangeCheckConfig`: the advice column holding the value and the
`q_range_check` selector (the `PhantomData` marker is dropped; the const
generic `RANGE` is passed explicitly to `assign`). -/
structure RangeCheckConfig where
  value : ℕ
  q_range_check : ℕ
  deriving DecidableEq, Repr

/-- `RangeCheckConfig::configure`: allocates the `q_range_check` selector and
registers the gate whose sole polynomial is
`meta.query_selector(q_range_check) * meta.query_advice(value, cur)`. -/
def RangeCheckConfig.configure {F : Type} (meta0 : ConstraintSystem F)
    (value : ℕ) : ConstraintSystem F × RangeCheckConfig :=
  let p1 := meta0.selector
  let q_range_check := p1.2
  let m1 := p1.1.create_gate
    [Expression.selector q_range_check * Expression.advice value]
  (m1, ⟨value, q_range_check⟩)

/-- The `range_check` closure inside `RangeCheckConfig::assign`:
`(1..range).fold(value, |expr, i| expr * (F::from(i) - value))`. -/
def range_check {F : Type} [Field F] (range : ℕ) (value : F) : F :=
  (List.range' 1 (range - 1)).foldl
    (fun (expr : F) (i : ℕ) => expr * ((i : F) - value)) value

/-- `RangeCheckConfig::assign`: inside the region, enables `q_range_check` at
offset 0, then writes `range_check(RANGE, value)` — not `value` itself — into
the `value` advice column at offset 0; returns the assigned cell's value
(the `RangeConstrained` wrapper's content). -/
def RangeCheckConfig.assign {F : Type} [Field F] (config : RangeCheckConfig)
    (range : ℕ) (value : F) (region : Region F) : Region F × F :=
  let offset := 0
  let region := region.enable_selector config.q_range_check offset
  let witness := range_check range value
  (region.assign_advice config.value offset witness, witness)

/-! ## IsZero gadget (`src/circuits/gadgets/is_zero_1.rs`) -/

/-- `IsZeroConfig`: the `value_inv` advice column and the derived
`is_zero_expression`. -/
structure IsZeroConfig (F : Type) where
  value_inv : ℕ
  is_zero_expression : Expression F
  deriving DecidableEq, Repr

/-- `IsZeroChip::configure`: given the `q_enable` and `value` expression
builders (here: the expressions they build) and the `value_inv` advice
column, registers the gate `[q_enable * value * is_zero_expression]` where
`is_zero_expression = Constant(1) - value * value_inv`, and returns the
config holding `value_inv` and `is_zero_expression`. -/
def IsZeroChip.configure {F : Type} [Field F] (meta0 : ConstraintSystem F)
    (q_enable value : Expression F) (value_inv : ℕ) :
    ConstraintSystem F × IsZeroConfig F :=
  let value_inv_expr := Expression.advice value_inv
  let is_zero_expression :=
    Expression.constant (1 : F) - value * value_inv_expr
  let m1 := meta0.create_gate [q_enable * value * is_zero_expression]
  (m1, ⟨value_inv, is_zero_expression⟩)

/-- `IsZeroChip::assign` (the `IsZeroInstruction` impl): computes the
deferred inverse of `value` (semantically `inv0 value`) and writes it into
the `value_inv` column at the given offset; returns unit. -/
def IsZeroChip.assign {F : Type} [Field F] [DecidableEq F]
    (config : IsZeroConfig F) (offset : ℕ) (value : F)
    (region : Region F) : Region F × Unit :=
  let value_invert := inv0 value
  (region.assign_advice config.value_inv offset value_invert, ())

/-! ## IsEqual gadget (`src/circuits/is_equal_1.rs`) -/

/-- `IsEqualConfig`: advice columns `a` and `b`, the fixed column `zero`, and
the `q_enable` selector. -/
structure IsEqualConfig where
  a : ℕ
  b : ℕ
  zero : ℕ
  q_enable : ℕ
  deriving DecidableEq, Repr

/-- `IsEqualChip::configure`: allocates a selector, advice `a`, advice `b`
and fixed `zero`, enables equality on `a` and `b` and constant on `zero`,
and registers the gate `[selector * (a - b - zero)]`. -/
def IsEqualChip.configure {F : Type} (meta0 : ConstraintSystem F) :
    ConstraintSystem F × IsEqualConfig :=
  let p1 := meta0.selector
  let sel := p1.2
  let p2 := p1.1.advice_column
  let a := p2.2
  let p3 := p2.1.advice_column
  let b := p3.2
  let p4 := p3.1.fixed_column
  let zeroCol := p4.2
  let m1 := p4.1.enable_equality a
  let m2 := m1.enable_equality b
  let m3 := m2.enable_constant zeroCol
  let m4 := m3.create_gate
    [Expression.selector sel *
      (Expression.advice a - Expression.advice b -
        Expression.fixedQuery zeroCol)]
  (m4, ⟨a, b, zeroCol, sel⟩)

/-- The region closure of `TestCircuit::synthesize` in
`src/circuits/is_equal_1.rs` — the assignment procedure of the IsEqual
gadget: enables the chip's selector at offset 0, writes `a` and `b` into the
chip's advice columns at offset 0, writes the field additive identity into
the fixed `zero` column at offset 0, and returns unit. -/
def TestCircuit.synthesizeRegion {F : Type} [Field F]
    (config : IsEqualConfig) (a b : F) (region : Region F) :
    Region F × Unit :=
  let region := region.enable_selector config.q_enable 0
  let region := region.assign_advice config.a 0 a
  let region := region.assign_advice config.b 0 b
  let region := region.assign_fixed config.zero 0 (0 : F)
  (region, ())

/-! ## The spec-side vanishing polynomial (for the RangeCheck claims) -/

/-- The vanishing product the specification attributes to the RangeCheck
gate: `value * (1 - value) * (2 - value) * ... * (RANGE-1 - value)`, written
as an explicit product of the factors. -/
def vanishingProd {F : Type} [Field F] (range : ℕ) (v : F) : F :=
  v * ((List.range' 1 (range - 1)).map (fun (i : ℕ) => (i : F) - v)).prod

/-- The gate polynomial the specification claims `RangeCheckConfig::configure`
registers: `selector * value * (1 - value) * ... * (RANGE-1 - value)`. -/
def vanishingGateSpec {F : Type} [Field F] (range : ℕ) (q v : F) : F :=
  q * vanishingProd range v

/-! ## Helper lemmas -/

lemma foldl_mul_sub {F : Type} [Field F] (l : List ℕ) (a v : F) :
    l.foldl (fun (expr : F) (i : ℕ) => expr * ((i : F) - v)) a
      = a * (l.map (fun (i : ℕ) => (i : F) - v)).prod := by
  induction l generalizing a with
  | nil => simp
  | cons x xs ih => simp [List.foldl_cons, ih, mul_assoc]

/-- The fold computed by the `range_check` closure equals the explicit
vanishing product. -/
lemma range_check_eq_vanishingProd {F : Type} [Field F] (range : ℕ)
    (v : F) : range_check range v = vanishingProd range v := by
  unfold range_check vanishingProd
  exact foldl_mul_sub (List.range' 1 (range - 1)) v v

/-- Field encodings of in-range integers are roots of the vanishing
product. -/
lemma vanishingProd_natCast_eq_zero {F : Type} [Field F] {range i : ℕ}
    (hi : i < range) : vanishingProd range ((i : ℕ) : F) = 0 := by
  rcases Nat.eq_zero_or_pos i with h0 | hpos
  · subst h0
    simp [vanishingProd]
  · apply mul_eq_zero_of_right
    apply List.prod_eq_zero
    refine List.mem_map.2 ⟨i, List.mem_range'_1.2 ⟨hpos, by omega⟩, ?_⟩
    exact sub_self _

/-- When every nonzero integer up to `range` is nonzero in the field (i.e.
the characteristic exceeds `range`), the boundary value `range` is not a
root of the vanishing product. -/
lemma vanishingProd_boundary_ne_zero {F : Type} [Field F] {range : ℕ}
    (hR : 0 < range) (hchar : ∀ n ∈ Finset.Icc 1 range, (n : F) ≠ 0) :
    vanishingProd range ((range : ℕ) : F) ≠ 0 := by
  unfold vanishingProd
  apply mul_ne_zero
  · exact hchar range (Finset.mem_Icc.2 ⟨hR, le_rfl⟩)
  · apply List.prod_ne_zero
    intro h0
    rcases List.mem_map.1 h0 with ⟨j, hj, hj0⟩
    have hj' := List.mem_range'_1.1 hj
    have hjr : j < range := by omega
    have hne : ((range - j : ℕ) : F) ≠ 0 :=
      hchar _ (Finset.mem_Icc.2 ⟨by omega, by omega⟩)
    apply hne
    rw [Nat.cast_sub hjr.le]
    rw [sub_eq_zero]
    exact (sub_eq_zero.mp hj0).symm

/-- After `RangeCheckConfig::configure`, the newly registered gates evaluate,
on a row where the allocated selector reads 1, to exactly the content of the
constrained advice cell. -/
lemma rangeCheck_gates_eval {F : Type} [Field F] (cs : ConstraintSystem F)
    (colv : ℕ) (asg : Assignment F)
    (hsel : asg.sel (RangeCheckConfig.configure cs colv).2.q_range_check = 1) :
    ((RangeCheckConfig.configure cs colv).1.gates.drop cs.gates.length).map
      (fun g => g.eval asg) = [asg.advice colv] := by
  simp only [RangeCheckConfig.configure, ConstraintSystem.selector,
    ConstraintSystem.create_gate] at hsel ⊢
  rw [List.drop_left]
  simp only [List.map_cons, List.map_nil]
  have heval : Expression.eval asg
      (Expression.selector cs.num_selectors * Expression.advice colv)
      = asg.advice colv := by
    show asg.sel cs.num_selectors * asg.advice colv = asg.advice colv
    rw [hsel, one_mul]
  rw [heval]

/-- Evaluating the polynomial built by the is_zero gate closure:
`q_enable * value * (Constant(1) - value * value_inv)`. -/
lemma isZero_gate_eval_elem {F : Type} [Field F]
    (q_enable value : Expression F) (col : ℕ) (asg : Assignment F) :
    (q_enable * value *
        (Expression.constant (1 : F) - value * Expression.advice col)).eval
        asg
      = q_enable.eval asg * value.eval asg *
          (1 - value.eval asg * asg.advice col) := by
  show q_enable.eval asg * value.eval asg *
      ((1 : F) + -(value.eval asg * asg.advice col)) = _
  rw [← sub_eq_add_neg]

/-- The gates newly registered by `IsZeroChip::configure` evaluate to exactly
`[q_enable · value · (1 − value · value_inv)]`. -/
lemma isZero_gates_eval {F : Type} [Field F] (cs : ConstraintSystem F)
    (q_enable value : Expression F) (col : ℕ) (asg : Assignment F) :
    ((IsZeroChip.configure cs q_enable value col).1.gates.drop
        cs.gates.length).map (fun g => g.eval asg)
      = [q_enable.eval asg * value.eval asg *
          (1 - value.eval asg * asg.advice col)] := by
  simp only [IsZeroChip.configure, ConstraintSystem.create_gate]
  rw [List.drop_left]
  simp only [List.map_cons, List.map_nil]
  rw [isZero_gate_eval_elem]

/-- Evaluating the `is_zero_expression` stored in the config returned by
`IsZeroChip::configure`. -/
lemma isZero_is_zero_expression_eval {F : Type} [Field F]
    (cs : ConstraintSystem F) (q_enable value : Expression F) (col : ℕ)
    (asg : Assignment F) :
    ((IsZeroChip.configure cs q_enable value col).2.is_zero_expression).eval
        asg
      = 1 - value.eval asg * asg.advice col := by
  show (1 : F) + -(value.eval asg * asg.advice col) = _
  rw [← sub_eq_add_neg]

/-- `v · (1 − v · inv0 v) = 0` in every field: the completeness identity of
the is_zero gate. -/
lemma mul_one_sub_mul_inv0 {F : Type} [Field F] [DecidableEq F] (v : F) :
    v * (1 - v * inv0 v) = 0 := by
  rcases eq_or_ne v 0 with h | h
  · rw [h, zero_mul]
  · rw [inv0, if_neg h, mul_inv_cancel₀ h, sub_self, mul_zero]

/-- The field `ZMod 5` used to instantiate witnesses. -/
instance factPrime5 : Fact (Nat.Prime 5) := ⟨by norm_num⟩

/-! ## Claim theorems -/

/-- C1: the claim states that `RangeCheckConfig::assign` writes the original
value being range-checked into the constrained advice cell.  The code does
not: at `RANGE = 3` with input `2` (over a prime field of characteristic
`5 > 3`), `assign` enables the selector and writes the vanishing-product
evaluation `2·(1−2)·(2−2) = 0` — not the original value `2` — into the
advice cell. -/
theorem rangeCheck_assign_writes_derived_value :
    (RangeCheckConfig.assign
        (RangeCheckConfig.configure (csEmpty (ZMod 5)) 0).2 3 (2 : ZMod 5)
        []).2 = 0
    ∧ (RangeCheckConfig.assign
        (RangeCheckConfig.configure (csEmpty (ZMod 5)) 0).2 3 (2 : ZMod 5)
        []).1
      = [CellWrite.enableSel 0 0, CellWrite.advice 0 0 (0 : ZMod 5)]
    ∧ (0 : ZMod 5) ≠ 2 := by
  decide

/-- C2: the claim states that `RangeCheckConfig::configure` registers a gate
whose polynomial is `selector * value * (1 - value) * ... * (RANGE-1 -
value)`.  The code instead registers the single gate `selector * value`,
independent of `RANGE`: over `ZMod 5` with `RANGE = 3`, on a selector-enabled
row whose advice cell holds the in-range value `1`, the registered gate
evaluates to `1 ≠ 0` (violated), while the claimed vanishing-product gate
evaluates to `0` (satisfied). -/
theorem rangeCheck_gate_not_vanishing_product :
    ((RangeCheckConfig.configure (csEmpty (ZMod 5)) 0).1.gates.map
        (fun g => g.eval ⟨fun _ => 1, fun _ => 0, fun _ => 1⟩)) = [1]
    ∧ (1 : ZMod 5) ≠ 0
    ∧ vanishingGateSpec 3 1 (1 : ZMod 5) = 0 := by
  decide

/-- C3: for `RANGE > 0` over a field whose characteristic exceeds `RANGE`
(every integer `1, …, RANGE` is nonzero in the field), running `assign` on
the field encoding of `i` and evaluating the registered gate on the
selector-enabled row yields zero for every `0 ≤ i < RANGE` (gate satisfied),
and a nonzero value for `i = RANGE` (gate violated). -/
theorem rangeCheck_membership {F : Type} [Field F] (range i : ℕ)
    (hR : 0 < range)
    (hchar : ∀ n ∈ Finset.Icc 1 range, (n : F) ≠ 0)
    (cs : ConstraintSystem F) (colv : ℕ) (asg : Assignment F)
    (hsel : asg.sel (RangeCheckConfig.configure cs colv).2.q_range_check = 1)
    (hcell : asg.advice colv
      = (RangeCheckConfig.assign (RangeCheckConfig.configure cs colv).2
          range (i : F) []).2) :
    (i < range →
      ((RangeCheckConfig.configure cs colv).1.gates.drop cs.gates.length).map
        (fun g => g.eval asg) = [0])
    ∧ (i = range →
      ((RangeCheckConfig.configure cs colv).1.gates.drop cs.gates.length).map
          (fun g => g.eval asg) = [vanishingProd range (range : F)]
        ∧ vanishingProd range (range : F) ≠ 0) := by
  have hmap := rangeCheck_gates_eval cs colv asg hsel
  have hw : asg.advice colv = vanishingProd range (i : F) := by
    rw [hcell]
    exact range_check_eq_vanishingProd range (i : F)
  constructor
  · intro hi
    rw [hmap, hw, vanishingProd_natCast_eq_zero hi]
  · intro hi
    subst hi
    exact ⟨by rw [hmap, hw], vanishingProd_boundary_ne_zero hR hchar⟩

/-- Witness for C3: instantiated at `RANGE = 3`, `i = 2` over `ZMod 5`, the
registered gate evaluates to zero on the selector-enabled row. -/
theorem rangeCheck_membership_witness :
    ((RangeCheckConfig.configure (csEmpty (ZMod 5)) 0).1.gates.drop
        (csEmpty (ZMod 5)).gates.length).map
      (fun g => g.eval ⟨fun _ => 0, fun _ => 0, fun _ => 1⟩)
      = [(0 : ZMod 5)] :=
  (rangeCheck_membership 3 2 (by decide) (by decide) (csEmpty (ZMod 5)) 0
    ⟨fun _ => 0, fun _ => 0, fun _ => 1⟩ (by decide) (by decide)).1
    (by decide)

/-- C4: the witness `RangeCheckConfig::assign` writes into the advice cell is
the vanishing-product evaluation `v·(1−v)·(2−v)·…·(RANGE−1−v)` (for
`RANGE = 1` the empty fold leaves the raw value `v`), and the registered
gate, on a selector-enabled row, evaluates to exactly the stored cell value —
i.e. it only checks that the stored cell is zero. -/
theorem rangeCheck_witness_eq_vanishing_product {F : Type} [Field F]
    (config : RangeCheckConfig) (range : ℕ) (v : F) (region : Region F)
    (cs : ConstraintSystem F) (colv : ℕ) (asg : Assignment F)
    (hsel : asg.sel (RangeCheckConfig.configure cs colv).2.q_range_check
      = 1) :
    (RangeCheckConfig.assign config range v region).2 = vanishingProd range v
    ∧ CellWrite.advice config.value 0 (vanishingProd range v)
        ∈ (RangeCheckConfig.assign config range v region).1
    ∧ (range = 1 → (RangeCheckConfig.assign config range v region).2 = v)
    ∧ ((RangeCheckConfig.configure cs colv).1.gates.drop cs.gates.length).map
        (fun g => g.eval asg) = [asg.advice colv] := by
  refine ⟨range_check_eq_vanishingProd range v, ?_, ?_, ?_⟩
  · show CellWrite.advice config.value 0 (vanishingProd range v)
      ∈ ((region.enable_selector config.q_range_check 0).assign_advice
          config.value 0 (range_check range v))
    rw [range_check_eq_vanishingProd range v]
    exact List.mem_append_right _ (List.mem_singleton.2 rfl)
  · intro h1
    subst h1
    show range_check 1 v = v
    simp [range_check]
  · exact rangeCheck_gates_eval cs colv asg hsel

/-- Witness for C4 at `RANGE = 3`, `v = 2` over `ZMod 5`: the assigned
witness equals the vanishing product (which is `0` there). -/
theorem rangeCheck_witness_eq_vanishing_product_witness :
    (RangeCheckConfig.assign ⟨0, 0⟩ 3 (2 : ZMod 5) []).2
      = vanishingProd 3 (2 : ZMod 5) :=
  (rangeCheck_witness_eq_vanishing_product ⟨0, 0⟩ 3 (2 : ZMod 5) []
    (csEmpty (ZMod 5)) 0 ⟨fun _ => 0, fun _ => 0, fun _ => 1⟩ (by decide)).1

/-- C5: `IsZeroChip::configure` registers exactly one gate — the constraint
system's gate list grows by the single polynomial
`q_enable * value * is_zero_expression`, which evaluates on every row
assignment to `q_enable · value · (1 − value · value_inv)` — and the
returned config holds the supplied `value_inv` advice column together with
`is_zero_expression`, which evaluates to `1 − value · value_inv`. -/
theorem isZero_configure_registers_gate {F : Type} [Field F]
    (cs : ConstraintSystem F) (q_enable value : Expression F) (col : ℕ) :
    (IsZeroChip.configure cs q_enable value col).1.gates
      = cs.gates ++ [q_enable * value *
          (IsZeroChip.configure cs q_enable value col).2.is_zero_expression]
    ∧ (IsZeroChip.configure cs q_enable value col).2.value_inv = col
    ∧ (∀ asg : Assignment F,
        ((IsZeroChip.configure cs q_enable value
            col).2.is_zero_expression).eval asg
          = 1 - value.eval asg * asg.advice col)
    ∧ (∀ asg : Assignment F,
        ((IsZeroChip.configure cs q_enable value col).1.gates.drop
            cs.gates.length).map (fun g => g.eval asg)
          = [q_enable.eval asg * value.eval asg *
              (1 - value.eval asg * asg.advice col)]) :=
  ⟨rfl, rfl, fun asg => isZero_is_zero_expression_eval cs q_enable value col
      asg,
    fun asg => isZero_gates_eval cs q_enable value col asg⟩

/-- C6 (IsZero completeness): for every field value `v`, `IsZeroChip::assign`
writes `inv0 v` into the `value_inv` column, and on a row where the enabling
expression reads 1, the value expression reads `v` and the `value_inv` cell
holds `inv0 v`, the registered gate evaluates to zero. -/
theorem isZero_completeness {F : Type} [Field F] [DecidableEq F]
    (cs : ConstraintSystem F) (q_enable value : Expression F) (col : ℕ)
    (offset : ℕ) (v : F) (region : Region F) (asg : Assignment F)
    (hq : q_enable.eval asg = 1) (hv : value.eval asg = v)
    (hw : asg.advice col = inv0 v) :
    (IsZeroChip.assign (IsZeroChip.configure cs q_enable value col).2 offset
        v region).1
      = region ++ [CellWrite.advice col offset (inv0 v)]
    ∧ ((IsZeroChip.configure cs q_enable value col).1.gates.drop
        cs.gates.length).map (fun g => g.eval asg) = [0] := by
  constructor
  · rfl
  · rw [isZero_gates_eval, hq, hv, hw, one_mul, mul_one_sub_mul_inv0]

/-- Witness for C6 at `v = 0` over `ZMod 5`: assign writes `inv0 0 = 0` and
the gate evaluates to zero on the enabled row. -/
theorem isZero_completeness_witness :
    (IsZeroChip.assign
        (IsZeroChip.configure (csEmpty (ZMod 5)) (Expression.selector 0)
          (Expression.advice 0) 1).2 0 (0 : ZMod 5) []).1
      = [] ++ [CellWrite.advice 1 0 (inv0 (0 : ZMod 5))]
    ∧ ((IsZeroChip.configure (csEmpty (ZMod 5)) (Expression.selector 0)
          (Expression.advice 0) 1).1.gates.drop
        (csEmpty (ZMod 5)).gates.length).map
        (fun g => g.eval ⟨fun _ => 0, fun _ => 0, fun _ => 1⟩) = [0] :=
  isZero_completeness (csEmpty (ZMod 5)) (Expression.selector 0)
    (Expression.advice 0) 1 0 (0 : ZMod 5) []
    ⟨fun _ => 0, fun _ => 0, fun _ => 1⟩ (by decide) (by decide) (by decide)

/-- C7 (IsZero soundness): for every `v ≠ 0` and every `w ≠ 1/v`, on a row
where the enabling expression reads 1, the value expression reads `v` and the
`value_inv` cell holds `w`, the registered gate evaluates to
`v · (1 − v·w) ≠ 0`, so the row is rejected. -/
theorem isZero_soundness {F : Type} [Field F]
    (cs : ConstraintSystem F) (q_enable value : Expression F) (col : ℕ)
    (v w : F) (asg : Assignment F)
    (hv0 : v ≠ 0) (hw : w ≠ 1 / v)
    (hq : q_enable.eval asg = 1) (hv : value.eval asg = v)
    (hinv : asg.advice col = w) :
    ((IsZeroChip.configure cs q_enable value col).1.gates.drop
        cs.gates.length).map (fun g => g.eval asg)
      = [v * (1 - v * w)]
    ∧ v * (1 - v * w) ≠ 0 := by
  constructor
  · rw [isZero_gates_eval, hq, hv, hinv, one_mul]
  · apply mul_ne_zero hv0
    intro h
    apply hw
    have h1 : v * w = 1 := ((sub_eq_zero.mp h).symm : v * w = 1)
    exact eq_one_div_of_mul_eq_one_right h1

/-- Witness for C7 at `v = 2`, `w = 1` over `ZMod 5` (where `1/2 = 3`): the
gate evaluates to `2·(1 − 2·1) = 3 ≠ 0`. -/
theorem isZero_soundness_witness :
    ((IsZeroChip.configure (csEmpty (ZMod 5)) (Expression.selector 0)
          (Expression.advice 0) 1).1.gates.drop
        (csEmpty (ZMod 5)).gates.length).map
        (fun g => g.eval
          ⟨fun i => if i = 0 then 2 else 1, fun _ => 0, fun _ => 1⟩)
      = [(2 : ZMod 5) * (1 - 2 * 1)]
    ∧ (2 : ZMod 5) * (1 - 2 * 1) ≠ 0 :=
  isZero_soundness (csEmpty (ZMod 5)) (Expression.selector 0)
    (Expression.advice 0) 1 2 1
    ⟨fun i => if i = 0 then 2 else 1, fun _ => 0, fun _ => 1⟩
    (by decide)
    (by
      rw [one_div,
        inv_eq_of_mul_eq_one_right (show (2 : ZMod 5) * 3 = 1 by decide)]
      decide)
    (by decide) (by decide) (by decide)

/-- C8 (IsZero indicator correctness): at any row assignment that satisfies
the registered gate with the enabling expression reading 1 and the value
expression reading `v`, the `is_zero_expression` evaluates to 1 when `v = 0`
and to 0 otherwise. -/
theorem isZero_indicator {F : Type} [Field F] [DecidableEq F]
    (cs : ConstraintSystem F) (q_enable value : Expression F) (col : ℕ)
    (v : F) (asg : Assignment F)
    (hq : q_enable.eval asg = 1) (hv : value.eval asg = v)
    (hsat : ((IsZeroChip.configure cs q_enable value col).1.gates.drop
        cs.gates.length).map (fun g => g.eval asg) = [0]) :
    ((IsZeroChip.configure cs q_enable value col).2.is_zero_expression).eval
        asg = if v = 0 then 1 else 0 := by
  rw [isZero_gates_eval, hq, hv, one_mul] at hsat
  injection hsat with h0 _
  rw [isZero_is_zero_expression_eval, hv]
  rcases eq_or_ne v 0 with hz | hz
  · rw [if_pos hz, hz, zero_mul, sub_zero]
  · rw [if_neg hz]
    rcases mul_eq_zero.mp h0 with hc | hc
    · exact absurd hc hz
    · exact hc

/-- Witness for C8 at `v = 2`, `value_inv = 3` over `ZMod 5` (a satisfying
assignment): the indicator evaluates to 0. -/
theorem isZero_indicator_witness :
    ((IsZeroChip.configure (csEmpty (ZMod 5)) (Expression.selector 0)
          (Expression.advice 0) 1).2.is_zero_expression).eval
        ⟨fun i => if i = 0 then 2 else 3, fun _ => 0, fun _ => 1⟩
      = if (2 : ZMod 5) = 0 then 1 else 0 :=
  isZero_indicator (csEmpty (ZMod 5)) (Expression.selector 0)
    (Expression.advice 0) 1 2
    ⟨fun i => if i = 0 then 2 else 3, fun _ => 0, fun _ => 1⟩
    (by decide) (by decide) (by decide)

/-- Evaluating the polynomial built by the is_equal gate closure:
`selector * (a - b - zero)`. -/
lemma isEqual_gate_eval_elem {F : Type} [Field F] (sa ai bi zi : ℕ)
    (asg : Assignment F) :
    (Expression.selector sa *
        (Expression.advice ai - Expression.advice bi -
          Expression.fixedQuery zi)).eval asg
      = asg.sel sa *
          (asg.advice ai - asg.advice bi - asg.fixedVal zi) := by
  show asg.sel sa *
      ((asg.advice ai + -(asg.advice bi)) + -(asg.fixedVal zi)) = _
  rw [← sub_eq_add_neg, ← sub_eq_add_neg]

/-- C9: `IsEqualChip::configure` appends exactly one gate, the polynomial
`selector * (a - b - zero)`; when the fixed `zero` cell holds the additive
identity and the selector reads 1, that gate evaluates to `a − b`, which
vanishes precisely when the two advice values are equal — so equal pairs
satisfy the gate and unequal pairs violate it. -/
theorem isEqual_configure_gate {F : Type} [Field F] (cs : ConstraintSystem F)
    (asg : Assignment F)
    (hsel : asg.sel (IsEqualChip.configure cs).2.q_enable = 1)
    (hzero : asg.fixedVal (IsEqualChip.configure cs).2.zero = 0) :
    (IsEqualChip.configure cs).1.gates.length = cs.gates.length + 1
    ∧ (((IsEqualChip.configure cs).1.gates.drop cs.gates.length).map
        (fun g => g.eval asg))
      = [asg.advice (IsEqualChip.configure cs).2.a
          - asg.advice (IsEqualChip.configure cs).2.b]
    ∧ (asg.advice (IsEqualChip.configure cs).2.a
          - asg.advice (IsEqualChip.configure cs).2.b = 0
        ↔ asg.advice (IsEqualChip.configure cs).2.a
          = asg.advice (IsEqualChip.configure cs).2.b) := by
  have hg : (IsEqualChip.configure cs).1.gates
      = cs.gates ++ [Expression.selector cs.num_selectors *
          (Expression.advice cs.num_advice -
            Expression.advice (cs.num_advice + 1) -
            Expression.fixedQuery cs.num_fixed)] := rfl
  have hsel' : asg.sel cs.num_selectors = 1 := hsel
  have hzero' : asg.fixedVal cs.num_fixed = 0 := hzero
  refine ⟨by rw [hg]; simp, ?_, sub_eq_zero⟩
  rw [hg, List.drop_left]
  simp only [List.map_cons, List.map_nil]
  rw [isEqual_gate_eval_elem, hsel', hzero', one_mul, sub_zero]
  rfl

/-- Witness for C9 over `ZMod 5` with `a = 2`, `b = 3` on the enabled row
with the fixed zero cell holding 0: the registered gate evaluates to
`2 − 3 ≠ 0`. -/
theorem isEqual_configure_gate_witness :
    (((IsEqualChip.configure (csEmpty (ZMod 5))).1.gates.drop
        (csEmpty (ZMod 5)).gates.length).map
        (fun g => g.eval
          ⟨fun i => if i = 0 then 2 else 3, fun _ => 0, fun _ => 1⟩))
      = [(2 : ZMod 5) - 3] :=
  (isEqual_configure_gate (csEmpty (ZMod 5))
    ⟨fun i => if i = 0 then 2 else 3, fun _ => 0, fun _ => 1⟩
    (by decide) (by decide)).2.1

/-- C10: the IsEqual assignment procedure (the region closure of
`TestCircuit::synthesize`) performs exactly four writes at row 0 — it
enables the chip's selector, writes the `a` value into the `a` advice
column, the `b` value into the `b` advice column, and the field additive
identity into the fixed `zero` column — and returns unit. -/
theorem isEqual_assign_writes {F : Type} [Field F] (config : IsEqualConfig)
    (a b : F) (region : Region F) :
    (TestCircuit.synthesizeRegion config a b region).1
      = region ++ [CellWrite.enableSel config.q_enable 0,
          CellWrite.advice config.a 0 a,
          CellWrite.advice config.b 0 b,
          CellWrite.fixedAt config.zero 0 (0 : F)]
    ∧ (TestCircuit.synthesizeRegion config a b region).2 = () := by
  constructor
  · simp [TestCircuit.synthesizeRegion, Region.enable_selector,
      Region.assign_advice, Region.assign_fixed]
  · rfl

end Circuits
